import Mathlib

/-!
Verification of the Orbit capture-backend sources against their
natural-language specification.

Shallow embedding of:
* `OrbitService/ProcessList.cpp` (`ProcessList::Refresh`), and
* `OrbitCore/OrbitFunction.cpp` (`Function::Select`, `Function::UnSelect`,
  `Function::IsSelected`, `Function::GetCallingConventionString`,
  `Function::SetOrbitTypeFromName`, and the `Function` constructor).

File-system reads, the CPU-utilization probe and the 64-bitness probe are
modelled as an explicit environment (`ProcEnv`); each fallible probe returns
an `Except String` value mirroring the `outcome::result` values of the code.
-/

set_option autoImplicit false

namespace Orbit

/-! ### Small string helpers mirroring the absl utilities used by the code -/

/-- `absl::ascii_isspace`: the six ASCII whitespace characters. -/
def asciiIsSpace (c : Char) : Bool :=
  c = ' ' || c = '\t' || c = '\n' || c = '\x0b' || c = '\x0c' || c = '\r'

/-- `absl::StripTrailingAsciiWhitespace` (in-place variant used by the code):
drop all trailing ASCII whitespace from the string. -/
def stripTrailingAsciiWhitespace (s : String) : String :=
  String.mk (((s.data.reverse).dropWhile asciiIsSpace).reverse)

/-- Decimal value of a list of ASCII digits, most significant first. -/
def digitsVal (cs : List Char) : Nat :=
  cs.foldl (fun acc c => acc * 10 + (c.toNat - 48)) 0

/-- `absl::SimpleAtoi<uint32_t>` on a directory-entry name: optional
surrounding ASCII whitespace, an optional leading `+` sign, then a non-empty
run of decimal digits whose value fits in 32 bits; anything else (including a
leading `-`, which abseil rejects for unsigned targets) fails. -/
def simpleAtoiU32 (s : String) : Option Nat :=
  let cs := ((s.data.dropWhile asciiIsSpace).reverse.dropWhile asciiIsSpace).reverse
  let cs := match cs with
    | '+' :: rest => rest
    | other => other
  if cs ≠ [] ∧ cs.all Char.isDigit ∧ digitsVal cs < 2 ^ 32 then
    some (digitsVal cs)
  else
    none

/-- `cmdline.substr(0, cmdline.find('\0'))`: the prefix of the string up to
(not including) the first NUL byte, or the whole string when no NUL occurs. -/
def takeUntilNul (s : String) : String :=
  String.mk (s.data.takeWhile (fun c => c ≠ Char.ofNat 0))

/-- `std::replace(cmdline.begin(), cmdline.end(), '\0', ' ')`. -/
def replaceNulWithSpace (s : String) : String :=
  String.mk (s.data.map (fun c => if c = Char.ofNat 0 then ' ' else c))

/-! ### The ProcessList data model

`ProcessInfo` is the protobuf message populated by `Refresh`; only the fields
the code touches are modelled.  `cpu_usage` is a `double` in the code; it is
only ever copied out of the per-pid aggregate (no arithmetic is performed on
it), so it is carried here as `Rat`.  Linux pids fit far below `2^31`, so the
`uint32_t`-parse / `int32_t`-storage distinction of the code is invisible and
pids are carried as `Nat`. -/

structure ProcessInfo where
  pid : Nat
  name : String
  cpu_usage : Rat
  full_path : String
  command_line : String
  is_64_bit : Bool
deriving Repr, DecidableEq

/-- One `/proc` directory entry as seen by the scan loop: whether it is a
directory, and its file name. -/
structure DirEntry where
  is_directory : Bool
  name : String
deriving Repr, DecidableEq

/-- The environment of one `Refresh` call: the CPU-utilization probe
(`LinuxUtils::GetCpuUtilization`), the `/proc` directory listing, and the
per-entry fallible reads.  `commFile`/`cmdlineFile` are keyed by the entry's
folder name (the code builds the paths `/proc/<name>/comm` and
`/proc/<name>/cmdline` from it); `is64Bit` is `LinuxUtils::Is64Bit(pid)`. -/
structure ProcEnv where
  cpu_result : Except String (List (Nat × Rat))
  entries : List DirEntry
  commFile : String → Except String String
  cmdlineFile : String → Except String String
  is64Bit : Nat → Except String Bool

/-- `std::unordered_map<int32_t, double>::operator[]`: the mapped value, or
the value-initialized default `0.0` when the key is absent. -/
def cpuLookup (m : List (Nat × Rat)) (pid : Nat) : Rat :=
  ((m.find? (fun p => p.1 = pid)).map (fun p => p.2)).getD 0

/-- `processes_map_` lookup (`processes_map_.find(pid)`); the C++ map stores
pointers into `processes_`, modelled here by storing the record value. -/
def mapFind (m : List (Nat × ProcessInfo)) (pid : Nat) : Option ProcessInfo :=
  ((m.find? (fun p => p.1 = pid)).map (fun p => p.2))

/-- `processes_map_[pid] = &process`: overwrite-or-insert. -/
def mapInsert (m : List (Nat × ProcessInfo)) (pid : Nat) (v : ProcessInfo) :
    List (Nat × ProcessInfo) :=
  (pid, v) :: m.filter (fun p => p.1 ≠ pid)

/-- Mutable state of a `ProcessList`: the snapshot vector `processes_` and the
pid-to-record index `processes_map_`. -/
structure ProcessListState where
  processes_ : List ProcessInfo
  processes_map_ : List (Nat × ProcessInfo)
deriving DecidableEq

/-- The records one directory entry contributes to `updated_processes`
(`[]` when the loop body `continue`s, one record otherwise), mirroring the
loop body of `ProcessList::Refresh` line by line. -/
def entryRecords (cpu_usage_map : List (Nat × Rat)) (env : ProcEnv)
    (st : ProcessListState) (e : DirEntry) : List ProcessInfo :=
  if !e.is_directory then [] else
  match simpleAtoiU32 e.name with
  | none => []
  | some pid =>
    match mapFind st.processes_map_ pid with
    | some process =>
        -- existing record: only cpu_usage is refreshed, nothing is re-read
        [{ process with cpu_usage := cpuLookup cpu_usage_map process.pid }]
    | none =>
        match env.commFile e.name with
        | .error _ => []  -- ERROR logged, process skipped
        | .ok raw =>
            let name := stripTrailingAsciiWhitespace raw
            if name = "" then [] else
            match env.cmdlineFile e.name with
            | .error _ => []  -- ERROR logged, process skipped
            | .ok cmdline =>
                match env.is64Bit pid with
                | .error _ => []  -- ERROR logged, process skipped
                | .ok b =>
                    [{ pid := pid
                       name := name
                       cpu_usage := cpuLookup cpu_usage_map pid
                       full_path := takeUntilNul cmdline
                       command_line := replaceNulWithSpace cmdline
                       is_64_bit := b }]

/-- Rebuild of `processes_map_` from the new snapshot:
`processes_map_.clear(); for (auto& process : processes_) processes_map_[process.pid()] = &process;`. -/
def rebuildMap (procs : List ProcessInfo) : List (Nat × ProcessInfo) :=
  procs.foldl (fun m p => mapInsert m p.pid p) []

instance {ε α : Type} [DecidableEq ε] [DecidableEq α] : DecidableEq (Except ε α) :=
  fun a b =>
    match a, b with
    | .error e, .error e' => decidable_of_iff (e = e') (by simp)
    | .ok v, .ok v' => decidable_of_iff (v = v') (by simp)
    | .error _, .ok _ => .isFalse (by simp)
    | .ok _, .error _ => .isFalse (by simp)

/-- Result of `ProcessList::Refresh`: the `outcome::result<void, std::string>`
return value together with the state of the `ProcessList` after the call. -/
structure RefreshOutcome where
  result : Except String Unit
  state : ProcessListState
deriving DecidableEq

namespace ProcessList

/-- `ProcessList::Refresh` (ProcessList.cpp).  On CPU-probe failure it returns
the formatted error before touching any state; otherwise it scans the entries,
accumulates `updated_processes`, then replaces `processes_` and rebuilds
`processes_map_` and returns success. -/
def Refresh (env : ProcEnv) (st : ProcessListState) : RefreshOutcome :=
  match env.cpu_result with
  | .error e =>
      { result := .error ("Unable to retrieve cpu usage of processes: " ++ e)
        state := st }
  | .ok cpu_usage_map =>
      let updated_processes :=
        env.entries.foldl (fun acc e => acc ++ entryRecords cpu_usage_map env st e) []
      { result := .ok ()
        state := { processes_ := updated_processes
                   processes_map_ := rebuildMap updated_processes } }

end ProcessList

/-! ### The Function model (OrbitFunction.cpp)

Only the fields the modelled member functions touch appear.  The header
`OrbitFunction.h` is not among the available sources; its in-class default
member initializers (`module_base_address_ = 0`, `calling_convention_ = -1`,
orbit type `NONE`) are modelled here, and `FunctionStats` (touched only by
`ResetStats`/`UpdateStats`) is out of the scope of every claim and omitted. -/

/-- `Function::OrbitType`: `NONE` plus the twelve API-marker types named in
`GetFunctionNameToOrbitTypeMap`. -/
inductive OrbitType where
  | NONE
  | ORBIT_TIMER_START
  | ORBIT_TIMER_STOP
  | ORBIT_TIMER_START_ASYNC
  | ORBIT_TIMER_STOP_ASYNC
  | ORBIT_TRACK_INT
  | ORBIT_TRACK_INT_64
  | ORBIT_TRACK_UINT
  | ORBIT_TRACK_UINT_64
  | ORBIT_TRACK_FLOAT
  | ORBIT_TRACK_DOUBLE
  | ORBIT_TRACK_FLOAT_AS_INT
  | ORBIT_TRACK_DOUBLE_AS_INT_64
deriving Repr, DecidableEq

structure Function where
  name_ : String
  pretty_name_ : String
  address_ : Nat
  load_bias_ : Nat
  size_ : Nat
  file_ : String
  line_ : Nat
  module_base_address_ : Nat
  calling_convention_ : Int
  orbit_type_ : OrbitType
deriving Repr, DecidableEq

/-- The `kCallingConventions` table of `Function::GetCallingConventionString`,
in source order (indices `0x00` through `0x19`). -/
def kCallingConventions : List String :=
  ["NEAR_C", "FAR_C", "NEAR_PASCAL", "FAR_PASCAL", "NEAR_FAST", "FAR_FAST",
   "SKIPPED", "NEAR_STD", "FAR_STD", "NEAR_SYS", "FAR_SYS", "THISCALL",
   "MIPSCALL", "GENERIC", "ALPHACALL", "PPCCALL", "SHCALL", "ARMCALL",
   "AM33CALL", "TRICALL", "SH5CALL", "M32RCALL", "CLRCALL", "INLINE",
   "NEAR_VECTOR", "RESERVED"]

/-- `Function::GetCallingConventionString`: bounds-check the stored
`calling_convention_` against the table size, falling back to
`"UnknownCallConv"` for a negative or too-large value. -/
def Function.GetCallingConventionString (f : Function) : String :=
  if f.calling_convention_ < 0 ∨
      (kCallingConventions.length : Int) ≤ f.calling_convention_ then
    "UnknownCallConv"
  else
    kCallingConventions.getD f.calling_convention_.toNat "UnknownCallConv"

/-- Executable check that `pat` occurs as a contiguous run inside `l`. -/
def listHasInfix (pat : List Char) : List Char → Bool
  | [] => pat.isEmpty
  | c :: rest => pat.isPrefixOf (c :: rest) || listHasInfix pat rest

/-- `absl::StrContains(name, pattern)`. -/
def strContains (s pat : String) : Bool :=
  listHasInfix pat.data s.data

/-- `absl::StartsWith(name, pattern)`. -/
def strStartsWith (s pat : String) : Bool :=
  pat.data.isPrefixOf s.data

/-- `Function::GetFunctionNameToOrbitTypeMap` in source (insertion) order.
The code iterates an `absl::flat_hash_map<const char*, OrbitType>` whose
iteration order is unspecified; for a pretty name containing several patterns
the type chosen by the code is therefore unspecified, and this model commits
to the insertion order. -/
def GetFunctionNameToOrbitTypeMap : List (String × OrbitType) :=
  [("Start(", .ORBIT_TIMER_START),
   ("Stop(", .ORBIT_TIMER_STOP),
   ("StartAsync(", .ORBIT_TIMER_START_ASYNC),
   ("StopAsync(", .ORBIT_TIMER_STOP_ASYNC),
   ("TrackInt(", .ORBIT_TRACK_INT),
   ("TrackInt64(", .ORBIT_TRACK_INT_64),
   ("TrackUint(", .ORBIT_TRACK_UINT),
   ("TrackUint64(", .ORBIT_TRACK_UINT_64),
   ("TrackFloat(", .ORBIT_TRACK_FLOAT),
   ("TrackDouble(", .ORBIT_TRACK_DOUBLE),
   ("TrackFloatAsInt(", .ORBIT_TRACK_FLOAT_AS_INT),
   ("TrackDoubleAsInt64(", .ORBIT_TRACK_DOUBLE_AS_INT_64)]

/-- `Function::SetOrbitTypeFromName`: on a pretty name in the `orbit_api`
namespace containing a recognized pattern, set the orbit type and return
`true`; otherwise return `false` leaving the function unchanged.  Returns the
boolean result together with the (possibly updated) function. -/
def Function.SetOrbitTypeFromName (f : Function) : Bool × Function :=
  let name := f.pretty_name_
  if strStartsWith name ("orbit_api::") then
    match GetFunctionNameToOrbitTypeMap.find? (fun p => strContains name p.1) with
    | some p => (true, { f with orbit_type_ := p.2 })
    | none => (false, f)
  else
    (false, f)

/-- The `Function::Function` constructor: store the seven arguments, leave the
remaining fields at their header defaults, then run `ResetStats()` (stats are
out of claim scope) and `SetOrbitTypeFromName()`. -/
def Function.create (name pretty_name : String) (address load_bias size : Nat)
    (file : String) (line : Nat) : Function :=
  let f : Function :=
    { name_ := name
      pretty_name_ := pretty_name
      address_ := address
      load_bias_ := load_bias
      size_ := size
      file_ := file
      line_ := line
      module_base_address_ := 0
      calling_convention_ := -1
      orbit_type_ := .NONE }
  (Function.SetOrbitTypeFromName f).2

/-- Modelled from the spec: `Function::GetVirtualAddress` is defined in
`OrbitFunction.h`, which is not among the available sources.  The log message
in `Function::Select` prints it alongside `address_`, `load_bias_` and
`module_base_address_`; it is the function's address relocated into the loaded
module, `address_ + module_base_address_ - load_bias_` in `uint64_t`
arithmetic.  The claims about selection depend only on its use as the key. -/
def Function.GetVirtualAddress (f : Function) : Nat :=
  (f.address_ + f.module_base_address_ + (2 ^ 64 - f.load_bias_ % 2 ^ 64)) % 2 ^ 64

/-- `Capture::GSelectedFunctionsMap` (declared in `Capture.h`, not among the
available sources): the shared global `std::map` from virtual address to
`Function*`, modelled as an association list that stores the function value in
place of the pointer.  `Select`/`UnSelect`/`IsSelected` thread it explicitly. -/
abbrev SelectedFunctionsMap := List (Nat × Function)

/-- `Function::Select`: `Capture::GSelectedFunctionsMap[GetVirtualAddress()] = this`
(`operator[]` overwrites any existing entry for the key). -/
def Function.Select (g : SelectedFunctionsMap) (f : Function) :
    SelectedFunctionsMap :=
  (f.GetVirtualAddress, f) :: g.filter (fun p => p.1 ≠ f.GetVirtualAddress)

/-- `Function::UnSelect`: `Capture::GSelectedFunctionsMap.erase(GetVirtualAddress())`. -/
def Function.UnSelect (g : SelectedFunctionsMap) (f : Function) :
    SelectedFunctionsMap :=
  g.filter (fun p => p.1 ≠ f.GetVirtualAddress)

/-- `Function::IsSelected`:
`Capture::GSelectedFunctionsMap.count(GetVirtualAddress()) > 0`. -/
def Function.IsSelected (g : SelectedFunctionsMap) (f : Function) : Bool :=
  0 < g.countP (fun p => p.1 = f.GetVirtualAddress)

/-- Lookup in the selected-functions map, for specifying `Select`/`UnSelect`. -/
def selFind (g : SelectedFunctionsMap) (a : Nat) : Option Function :=
  (g.find? (fun p => p.1 = a)).map (fun p => p.2)

/-! ### Helper lemmas -/

theorem foldl_append_eq_flatMap {α β : Type} (f : α → List β) :
    ∀ (l : List α) (acc : List β),
      l.foldl (fun acc e => acc ++ f e) acc = acc ++ l.flatMap f := by
  intro l
  induction l with
  | nil => intro acc; simp
  | cons x xs ih => intro acc; simp [List.foldl_cons, ih]

/-- On a successful CPU probe, `Refresh` returns success, the new snapshot is
the concatenation of the per-entry contributions, and the index is rebuilt
from the new snapshot. -/
theorem Refresh_ok (env : ProcEnv) (st : ProcessListState)
    (cpu : List (Nat × Rat)) (h : env.cpu_result = Except.ok cpu) :
    ProcessList.Refresh env st =
      { result := Except.ok ()
        state := { processes_ := env.entries.flatMap (entryRecords cpu env st)
                   processes_map_ :=
                     rebuildMap (env.entries.flatMap (entryRecords cpu env st)) } } := by
  unfold ProcessList.Refresh
  rw [h]
  simp only [foldl_append_eq_flatMap, List.nil_append]

theorem find?_key_filter_ne {β : Type} (k q : Nat) (h : ¬ q = k) :
    ∀ m : List (Nat × β),
      (m.filter (fun p => p.1 ≠ k)).find? (fun p => p.1 = q) =
        m.find? (fun p => p.1 = q) := by
  intro m
  rw [List.find?_filter]
  have hpred : (fun (a : Nat × β) =>
      decide ((decide (a.1 ≠ k)) = true ∧ (decide (a.1 = q)) = true)) =
      (fun a : Nat × β => decide (a.1 = q)) := by
    funext a
    by_cases hq : a.1 = q
    · have hk : a.1 ≠ k := fun hk => h (by rw [← hq, hk])
      simp [hq, hk, h]
    · simp [hq]
  rw [hpred]

theorem mapFind_insert (m : List (Nat × ProcessInfo)) (k : Nat)
    (v : ProcessInfo) (q : Nat) :
    mapFind (mapInsert m k v) q = if k = q then some v else mapFind m q := by
  unfold mapFind mapInsert
  by_cases hkq : k = q
  · simp [List.find?_cons, hkq]
  · have hd : (decide ((k, v).1 = q)) = false := by simp [hkq]
    rw [List.find?_cons, hd, if_neg hkq,
      find?_key_filter_ne k q (fun hq => hkq hq.symm) m]

theorem mapFind_foldl (l : List ProcessInfo) :
    ∀ (m : List (Nat × ProcessInfo)) (q : Nat),
      mapFind (l.foldl (fun acc p => mapInsert acc p.pid p) m) q =
        (l.reverse.find? (fun r => r.pid = q)).or (mapFind m q) := by
  induction l with
  | nil => intro m q; simp
  | cons p rest ih =>
    intro m q
    rw [List.foldl_cons, ih, List.reverse_cons, List.find?_append,
      mapFind_insert, Option.or_assoc]
    congr 1
    by_cases hpq : p.pid = q <;> simp [List.find?_cons, hpq]

/-- The rebuilt index resolves a pid to the last snapshot record carrying it
(the last `processes_map_[process.pid()] = &process` write wins). -/
theorem mapFind_rebuildMap (l : List ProcessInfo) (q : Nat) :
    mapFind (rebuildMap l) q = l.reverse.find? (fun r => r.pid = q) := by
  rw [rebuildMap, mapFind_foldl]
  simp [mapFind]

theorem entryRecords_known (cpu : List (Nat × Rat)) (env : ProcEnv)
    (st : ProcessListState) (e : DirEntry) (pid : Nat) (prev : ProcessInfo)
    (hd : e.is_directory = true) (hp : simpleAtoiU32 e.name = some pid)
    (hm : mapFind st.processes_map_ pid = some prev) :
    entryRecords cpu env st e =
      [{ prev with cpu_usage := cpuLookup cpu prev.pid }] := by
  simp [entryRecords, hd, hp, hm]

theorem entryRecords_error_skip (cpu : List (Nat × Rat)) (env : ProcEnv)
    (st : ProcessListState) (e : DirEntry) (pid : Nat)
    (hp : simpleAtoiU32 e.name = some pid)
    (hm : mapFind st.processes_map_ pid = none)
    (hfail : (∃ m, env.commFile e.name = Except.error m) ∨
             (∃ m, env.cmdlineFile e.name = Except.error m) ∨
             (∃ m, env.is64Bit pid = Except.error m)) :
    entryRecords cpu env st e = [] := by
  by_cases hd : e.is_directory
  · rcases hcomm : env.commFile e.name with msg | raw
    · simp [entryRecords, hd, hp, hm, hcomm]
    · by_cases hname : stripTrailingAsciiWhitespace raw = ""
      · simp [entryRecords, hd, hp, hm, hcomm, hname]
      · rcases hcmd : env.cmdlineFile e.name with msg2 | cmdline
        · simp [entryRecords, hd, hp, hm, hcomm, hname, hcmd]
        · rcases h64 : env.is64Bit pid with msg3 | b
          · simp [entryRecords, hd, hp, hm, hcomm, hname, hcmd, h64]
          · exfalso
            rcases hfail with ⟨m, hme⟩ | ⟨m, hme⟩ | ⟨m, hme⟩
            · rw [hcomm] at hme; exact Except.noConfusion hme
            · rw [hcmd] at hme; exact Except.noConfusion hme
            · rw [h64] at hme; exact Except.noConfusion hme
  · simp [entryRecords, Bool.of_not_eq_true hd]

theorem entryRecords_skip (cpu : List (Nat × Rat)) (env : ProcEnv)
    (st : ProcessListState) (e : DirEntry)
    (h : e.is_directory = false ∨ simpleAtoiU32 e.name = none) :
    entryRecords cpu env st e = [] := by
  rcases h with h | h
  · simp [entryRecords, h]
  · by_cases hd : e.is_directory
    · simp [entryRecords, hd, h]
    · simp [entryRecords, Bool.of_not_eq_true hd]

theorem flatMap_filter_eq {α β : Type} (p : α → Bool) (f : α → List β)
    (hf : ∀ a, p a = false → f a = []) :
    ∀ l : List α, (l.filter p).flatMap f = l.flatMap f := by
  intro l
  induction l with
  | nil => rfl
  | cons x xs ih =>
    by_cases hx : p x
    · simp [List.filter_cons, hx, ih]
    · have hx' : p x = false := by simpa using hx
      simp [List.filter_cons, hx', ih, hf x hx']

/-! ### Concrete inputs used by the witnesses -/

def procA : ProcessInfo :=
  { pid := 7, name := "init", cpu_usage := 1, full_path := "/sbin/init",
    command_line := "/sbin/init ", is_64_bit := true }

def stA : ProcessListState :=
  { processes_ := [procA], processes_map_ := [(7, procA)] }

def envCpuFail : ProcEnv :=
  { cpu_result := Except.error ("boom")
    entries := [{ is_directory := true, name := "7" }]
    commFile := fun _ => Except.ok ("init\n")
    cmdlineFile := fun _ => Except.ok ("x")
    is64Bit := fun _ => Except.ok true }

def cpuB : List (Nat × Rat) := [(7, 3), (8, 5)]

def envOk : ProcEnv :=
  { cpu_result := Except.ok cpuB
    entries := [{ is_directory := true, name := "7" },
                { is_directory := true, name := "8" },
                { is_directory := false, name := "9" },
                { is_directory := true, name := "self" }]
    commFile := fun n => if n = "8" then Except.ok ("bash\n")
                         else Except.error ("unreadable")
    cmdlineFile := fun _ =>
      Except.ok (String.mk ['b', 'i', 'n', Char.ofNat 0, 'a'])
    is64Bit := fun _ => Except.ok true }

/-! ### Claim theorems for `ProcessList::Refresh` -/

/-- C1: when the CPU-utilization source cannot be read, `Refresh` returns the
descriptive failure and leaves both `processes_` and `processes_map_`
untouched; and whenever the table changes at all, `Refresh` returned
success. -/
theorem refresh_cpu_failure_leaves_table_unchanged :
    (∀ (env : ProcEnv) (st : ProcessListState) (e : String),
       env.cpu_result = Except.error e →
       (ProcessList.Refresh env st).result =
         Except.error ("Unable to retrieve cpu usage of processes: " ++ e) ∧
       (ProcessList.Refresh env st).state.processes_ = st.processes_ ∧
       (ProcessList.Refresh env st).state.processes_map_ = st.processes_map_) ∧
    (∀ (env : ProcEnv) (st : ProcessListState),
       (ProcessList.Refresh env st).state ≠ st →
       (ProcessList.Refresh env st).result = Except.ok ()) := by
  constructor
  · intro env st e h
    unfold ProcessList.Refresh
    rw [h]
    exact ⟨rfl, rfl, rfl⟩
  · intro env st hne
    rcases hc : env.cpu_result with e | cpu
    · exact absurd (by unfold ProcessList.Refresh; rw [hc]) hne
    · unfold ProcessList.Refresh
      rw [hc]

/-- C1 witness: a concrete failing CPU probe. -/
theorem refresh_cpu_failure_witness :
    (ProcessList.Refresh envCpuFail stA).result =
      Except.error ("Unable to retrieve cpu usage of processes: " ++ "boom") ∧
    (ProcessList.Refresh envCpuFail stA).state.processes_ = stA.processes_ ∧
    (ProcessList.Refresh envCpuFail stA).state.processes_map_ =
      stA.processes_map_ :=
  refresh_cpu_failure_leaves_table_unchanged.1 envCpuFail stA ("boom") rfl

/-- C2: with a readable CPU source, `Refresh` succeeds whatever the per-entry
reads do; the snapshot is the independent concatenation of per-entry
contributions; and a new pid whose `comm` read, `cmdline` read or 64-bitness
probe fails contributes no record (it alone is omitted). -/
theorem refresh_skips_unreadable_process_and_succeeds (env : ProcEnv)
    (st : ProcessListState) (cpu : List (Nat × Rat))
    (h : env.cpu_result = Except.ok cpu) :
    (ProcessList.Refresh env st).result = Except.ok () ∧
    (ProcessList.Refresh env st).state.processes_ =
      env.entries.flatMap (entryRecords cpu env st) ∧
    (∀ (e : DirEntry) (pid : Nat),
       simpleAtoiU32 e.name = some pid →
       mapFind st.processes_map_ pid = none →
       ((∃ m, env.commFile e.name = Except.error m) ∨
        (∃ m, env.cmdlineFile e.name = Except.error m) ∨
        (∃ m, env.is64Bit pid = Except.error m)) →
       entryRecords cpu env st e = []) := by
  refine ⟨?_, ?_, ?_⟩
  · simp only [Refresh_ok env st cpu h]
  · simp only [Refresh_ok env st cpu h]
  · intro e pid hp hm hfail
    exact entryRecords_error_skip cpu env st e pid hp hm hfail

/-- C2 witness: pid 12 is new and its `comm` file is unreadable in `envOk`;
its record is omitted while the refresh succeeds. -/
theorem refresh_skip_witness :
    (ProcessList.Refresh envOk stA).result = Except.ok () ∧
    entryRecords cpuB envOk stA { is_directory := true, name := "12" } = [] :=
  ⟨(refresh_skips_unreadable_process_and_succeeds envOk stA cpuB rfl).1,
   (refresh_skips_unreadable_process_and_succeeds envOk stA cpuB rfl).2.2
     { is_directory := true, name := "12" } 12 (by decide) rfl
     (Or.inl ⟨"unreadable", rfl⟩)⟩

/-- C3: a pid already in the table that is observed again contributes exactly
its prior record with only `cpu_usage` replaced from the per-pid aggregate
(all other fields preserved), that record lands in the new snapshot, and the
contribution does not depend on the file-reading environment (the metadata
files are not re-read). -/
theorem refresh_preserves_existing_record_fields (env : ProcEnv)
    (st : ProcessListState) (cpu : List (Nat × Rat)) (e : DirEntry)
    (pid : Nat) (prev : ProcessInfo)
    (h : env.cpu_result = Except.ok cpu) (he : e ∈ env.entries)
    (hd : e.is_directory = true) (hp : simpleAtoiU32 e.name = some pid)
    (hm : mapFind st.processes_map_ pid = some prev) :
    entryRecords cpu env st e =
      [{ prev with cpu_usage := cpuLookup cpu prev.pid }] ∧
    { prev with cpu_usage := cpuLookup cpu prev.pid } ∈
      (ProcessList.Refresh env st).state.processes_ ∧
    (∀ r, r ∈ entryRecords cpu env st e →
       r.pid = prev.pid ∧ r.name = prev.name ∧
       r.full_path = prev.full_path ∧ r.command_line = prev.command_line ∧
       r.is_64_bit = prev.is_64_bit ∧ r.cpu_usage = cpuLookup cpu prev.pid) ∧
    (∀ env' : ProcEnv, entryRecords cpu env' st e = entryRecords cpu env st e) := by
  have hrec := entryRecords_known cpu env st e pid prev hd hp hm
  refine ⟨hrec, ?_, ?_, ?_⟩
  · simp only [Refresh_ok env st cpu h]
    exact List.mem_flatMap.mpr ⟨e, he, by rw [hrec]; exact List.mem_singleton.mpr rfl⟩
  · intro r hr
    rw [hrec] at hr
    have h' := List.mem_singleton.mp hr
    subst h'
    exact ⟨rfl, rfl, rfl, rfl, rfl, rfl⟩
  · intro env'
    rw [entryRecords_known cpu env' st e pid prev hd hp hm, hrec]

/-- C3 witness: pid 7 is already in `stA`; its record is carried over with
only `cpu_usage` refreshed, even though `envOk` cannot read its `comm`. -/
theorem refresh_preserve_witness :
    entryRecords cpuB envOk stA { is_directory := true, name := "7" } =
      [{ procA with cpu_usage := cpuLookup cpuB procA.pid }] ∧
    { procA with cpu_usage := cpuLookup cpuB procA.pid } ∈
      (ProcessList.Refresh envOk stA).state.processes_ :=
  ⟨(refresh_preserves_existing_record_fields envOk stA cpuB
      { is_directory := true, name := "7" } 7 procA rfl (by decide) rfl rfl rfl).1,
   (refresh_preserves_existing_record_fields envOk stA cpuB
      { is_directory := true, name := "7" } 7 procA rfl (by decide) rfl rfl rfl).2.1⟩

/-- C4: after a successful `Refresh` the snapshot consists exactly of the
scan's per-entry contributions, and the rebuilt `processes_map_` resolves
precisely the pids of the new snapshot, each to a record of the new
snapshot carrying that pid (no stale entries). -/
theorem refresh_snapshot_and_index_rebuilt (env : ProcEnv)
    (st : ProcessListState) (cpu : List (Nat × Rat))
    (h : env.cpu_result = Except.ok cpu) :
    (ProcessList.Refresh env st).result = Except.ok () ∧
    (ProcessList.Refresh env st).state.processes_ =
      env.entries.flatMap (entryRecords cpu env st) ∧
    (∀ q : Nat,
       (mapFind (ProcessList.Refresh env st).state.processes_map_ q).isSome = true ↔
         q ∈ (ProcessList.Refresh env st).state.processes_.map ProcessInfo.pid) ∧
    (∀ (q : Nat) (r : ProcessInfo),
       mapFind (ProcessList.Refresh env st).state.processes_map_ q = some r →
         r ∈ (ProcessList.Refresh env st).state.processes_ ∧ r.pid = q) := by
  simp only [Refresh_ok env st cpu h]
  refine ⟨trivial, trivial, ?_, ?_⟩
  · intro q
    rw [mapFind_rebuildMap, List.find?_isSome]
    constructor
    · rintro ⟨r, hr, hq⟩
      exact List.mem_map.mpr ⟨r, List.mem_reverse.mp hr, by simpa using hq⟩
    · intro hq
      rcases List.mem_map.mp hq with ⟨r, hr, hpid⟩
      exact ⟨r, List.mem_reverse.mpr hr, by simp [hpid]⟩
  · intro q r hfind
    rw [mapFind_rebuildMap] at hfind
    exact ⟨List.mem_reverse.mp (List.mem_of_find?_eq_some hfind),
      by simpa using List.find?_some hfind⟩

/-- C4 witness: the rebuilt index of a concrete refresh resolves pid 8 iff
the new snapshot carries it. -/
theorem refresh_snapshot_witness :
    (ProcessList.Refresh envOk stA).result = Except.ok () ∧
    ((mapFind (ProcessList.Refresh envOk stA).state.processes_map_ 8).isSome = true ↔
      8 ∈ (ProcessList.Refresh envOk stA).state.processes_.map ProcessInfo.pid) :=
  ⟨(refresh_snapshot_and_index_rebuilt envOk stA cpuB rfl).1,
   (refresh_snapshot_and_index_rebuilt envOk stA cpuB rfl).2.2.1 8⟩

/-- C7: a non-directory entry or an entry whose name does not parse as a pid
contributes nothing; the snapshot equals the scan restricted to numeric
directory entries; and every snapshot record originates from such an entry. -/
theorem refresh_skips_nonnumeric_and_nondirectory_entries (env : ProcEnv)
    (st : ProcessListState) (cpu : List (Nat × Rat))
    (h : env.cpu_result = Except.ok cpu) :
    (∀ e : DirEntry,
       e.is_directory = false ∨ simpleAtoiU32 e.name = none →
       entryRecords cpu env st e = []) ∧
    (ProcessList.Refresh env st).state.processes_ =
      (env.entries.filter
        (fun e => e.is_directory && (simpleAtoiU32 e.name).isSome)).flatMap
        (entryRecords cpu env st) ∧
    (∀ r, r ∈ (ProcessList.Refresh env st).state.processes_ →
       ∃ e, e ∈ env.entries ∧ e.is_directory = true ∧
         (simpleAtoiU32 e.name).isSome = true ∧ r ∈ entryRecords cpu env st e) := by
  have hskip : ∀ e : DirEntry,
      (e.is_directory && (simpleAtoiU32 e.name).isSome) = false →
      entryRecords cpu env st e = [] := by
    intro e he
    by_cases hd : e.is_directory
    · rcases hs : simpleAtoiU32 e.name with _ | v
      · exact entryRecords_skip cpu env st e (Or.inr hs)
      · rw [hd, hs] at he
        exact absurd he (by simp)
    · exact entryRecords_skip cpu env st e
        (Or.inl (Bool.of_not_eq_true hd))
  refine ⟨?_, ?_, ?_⟩
  · intro e he
    exact entryRecords_skip cpu env st e he
  · simp only [Refresh_ok env st cpu h]
    exact (flatMap_filter_eq _ _ hskip env.entries).symm
  · intro r hr
    simp only [Refresh_ok env st cpu h] at hr
    rcases List.mem_flatMap.mp hr with ⟨e, he, hre⟩
    by_cases hd : e.is_directory
    · rcases hs : simpleAtoiU32 e.name with _ | v
      · rw [entryRecords_skip cpu env st e (Or.inr hs)] at hre
        exact absurd hre (List.not_mem_nil r)
      · exact ⟨e, he, hd, by simp [hs], hre⟩
    · rw [entryRecords_skip cpu env st e
        (Or.inl (Bool.of_not_eq_true hd))] at hre
      exact absurd hre (List.not_mem_nil r)

/-- C7 witness: the non-numeric entry `self` and the non-directory entry `9`
of `envOk` contribute no record. -/
theorem refresh_nonnumeric_witness :
    entryRecords cpuB envOk stA { is_directory := true, name := "self" } = [] ∧
    entryRecords cpuB envOk stA { is_directory := false, name := "9" } = [] :=
  ⟨(refresh_skips_nonnumeric_and_nondirectory_entries envOk stA cpuB rfl).1
     { is_directory := true, name := "self" } (Or.inr (by decide)),
   (refresh_skips_nonnumeric_and_nondirectory_entries envOk stA cpuB rfl).1
     { is_directory := false, name := "9" } (Or.inl rfl)⟩

/-! ### Claim theorems for `OrbitFunction.cpp` -/

theorem listHasInfix_iff (pat : List Char) :
    ∀ l : List Char, listHasInfix pat l = true ↔ pat <:+: l := by
  intro l
  induction l with
  | nil => simp [listHasInfix, List.isEmpty_iff, List.infix_nil]
  | cons c rest ih =>
    simp [listHasInfix, Bool.or_eq_true, List.isPrefixOf_iff_prefix, ih,
      List.infix_cons_iff]

theorem strContains_iff (s pat : String) :
    strContains s pat = true ↔ pat.data <:+: s.data :=
  listHasInfix_iff pat.data s.data

theorem strStartsWith_iff (s pat : String) :
    strStartsWith s pat = true ↔ pat.data <+: s.data :=
  List.isPrefixOf_iff_prefix

/-- Concrete functions for the witnesses.  `fA` and `fB` have distinct code
addresses but the same virtual address `100`. -/
def fCc (cc : Int) : Function :=
  { name_ := "f", pretty_name_ := "f(", address_ := 0, load_bias_ := 0,
    size_ := 0, file_ := "", line_ := 0, module_base_address_ := 0,
    calling_convention_ := cc, orbit_type_ := .NONE }

def fA : Function :=
  { name_ := "a", pretty_name_ := "a(", address_ := 100, load_bias_ := 0,
    size_ := 4, file_ := "", line_ := 0, module_base_address_ := 0,
    calling_convention_ := 0, orbit_type_ := .NONE }

def fB : Function :=
  { name_ := "b", pretty_name_ := "b(", address_ := 150, load_bias_ := 50,
    size_ := 4, file_ := "", line_ := 0, module_base_address_ := 0,
    calling_convention_ := 0, orbit_type_ := .NONE }

def fSel : Function :=
  Function.create ("foo") ("foo(int)") 4096 0 16 ("foo.cpp") 10

/-- C6 counterexample: `Function::Select` does write the ambient global
address-keyed map `Capture::GSelectedFunctionsMap` (and `IsSelected` reads
it): selecting `fSel` on an empty map inserts an entry at its virtual
address, flipping `IsSelected` from `false` to `true`.  No per-pid capture
registry exists in this code. -/
theorem select_writes_global_selected_functions_map :
    Function.Select ([] : SelectedFunctionsMap) fSel =
      [(fSel.GetVirtualAddress, fSel)] ∧
    Function.IsSelected ([] : SelectedFunctionsMap) fSel = false ∧
    Function.IsSelected (Function.Select ([] : SelectedFunctionsMap) fSel)
      fSel = true :=
  ⟨rfl, rfl, rfl⟩

/-- C6 (amended): selection state is kept in the single shared mutable global
map `Capture::GSelectedFunctionsMap`, keyed by `GetVirtualAddress()`:
`Select` stores the function under its virtual address and touches no other
key, `UnSelect` erases exactly that key, and `IsSelected` is a read of that
key. -/
theorem selection_state_is_global_address_keyed_map
    (g : SelectedFunctionsMap) (f : Function) :
    selFind (Function.Select g f) f.GetVirtualAddress = some f ∧
    (∀ a, a ≠ f.GetVirtualAddress →
       selFind (Function.Select g f) a = selFind g a) ∧
    selFind (Function.UnSelect g f) f.GetVirtualAddress = none ∧
    (∀ a, a ≠ f.GetVirtualAddress →
       selFind (Function.UnSelect g f) a = selFind g a) ∧
    Function.IsSelected g f = (selFind g f.GetVirtualAddress).isSome := by
  refine ⟨?_, ?_, ?_, ?_, ?_⟩
  · simp [selFind, Function.Select, List.find?_cons]
  · intro a ha
    unfold selFind Function.Select
    have hh : (decide ((f.GetVirtualAddress, f).1 = a)) = false := by
      simp only [decide_eq_false_iff_not]
      exact fun h' => ha h'.symm
    rw [List.find?_cons, hh,
      find?_key_filter_ne f.GetVirtualAddress a ha g]
  · unfold selFind Function.UnSelect
    rcases hf : (g.filter (fun p => p.1 ≠ f.GetVirtualAddress)).find?
        (fun p => p.1 = f.GetVirtualAddress) with _ | p
    · rw [hf]
      rfl
    · exfalso
      have h1 := List.find?_some hf
      have h3 := (List.mem_filter.mp (List.mem_of_find?_eq_some hf)).2
      simp only [decide_eq_true_eq] at h1 h3
      exact h3 h1
  · intro a ha
    unfold selFind Function.UnSelect
    rw [find?_key_filter_ne f.GetVirtualAddress a ha g]
  · unfold Function.IsSelected selFind
    rcases hf : g.find? (fun p => p.1 = f.GetVirtualAddress) with _ | p
    · have hz : g.countP (fun p => p.1 = f.GetVirtualAddress) = 0 := by
        refine List.countP_eq_zero.mpr ?_
        intro a hal
        simpa using List.find?_eq_none.mp hf a hal
      simp [hz, hf]
    · have hmem := List.mem_of_find?_eq_some hf
      have hp := List.find?_some hf
      have hpos : 0 < g.countP (fun p => p.1 = f.GetVirtualAddress) :=
        List.countP_pos_iff.mpr ⟨p, hmem, hp⟩
      simp [hpos, hf]

/-- C6 witness for the amended claim: concrete reads of the global map around
`Select`/`UnSelect`. -/
theorem selection_map_witness :
    selFind (Function.Select [] fA) fA.GetVirtualAddress = some fA ∧
    selFind (Function.UnSelect [(fA.GetVirtualAddress, fA)] fA)
      fA.GetVirtualAddress = none ∧
    selFind (Function.Select [(5, fB)] fA) 5 = selFind [(5, fB)] 5 :=
  ⟨(selection_state_is_global_address_keyed_map [] fA).1,
   (selection_state_is_global_address_keyed_map
      [(fA.GetVirtualAddress, fA)] fA).2.2.1,
   (selection_state_is_global_address_keyed_map [(5, fB)] fA).2.1 5 (by decide)⟩

/-- C8: `GetCallingConventionString` returns the table entry at the stored
index for `0 ≤ calling_convention_ ≤ 25` (a string of the table, so the
access is in bounds) and `"UnknownCallConv"` for a negative value or one of
`26` and above. -/
theorem calling_convention_string_in_bounds (f : Function) :
    ((0 ≤ f.calling_convention_ ∧ f.calling_convention_ ≤ 25) →
       f.GetCallingConventionString =
         kCallingConventions.getD f.calling_convention_.toNat
           ("UnknownCallConv") ∧
       f.GetCallingConventionString ∈ kCallingConventions) ∧
    ((f.calling_convention_ < 0 ∨ 26 ≤ f.calling_convention_) →
       f.GetCallingConventionString = ("UnknownCallConv")) := by
  have hlen : (kCallingConventions.length : Int) = 26 := rfl
  constructor
  · rintro ⟨h0, h25⟩
    have hcond : ¬ (f.calling_convention_ < 0 ∨
        (kCallingConventions.length : Int) ≤ f.calling_convention_) := by
      rw [hlen]
      omega
    have heq : f.GetCallingConventionString =
        kCallingConventions.getD f.calling_convention_.toNat
          ("UnknownCallConv") := by
      unfold Function.GetCallingConventionString
      rw [if_neg hcond]
    refine ⟨heq, ?_⟩
    have h26 : kCallingConventions.length = 26 := rfl
    have hn : f.calling_convention_.toNat < kCallingConventions.length := by
      rw [h26]
      omega
    rw [heq, List.getD_eq_getElem?_getD, List.getElem?_eq_getElem hn]
    simp only [Option.getD_some]
    exact List.getElem_mem hn
  · intro h
    unfold Function.GetCallingConventionString
    by_cases hc : (f.calling_convention_ < 0 ∨
        (kCallingConventions.length : Int) ≤ f.calling_convention_)
    · rw [if_pos hc]
    · rw [hlen] at hc
      exact absurd h hc

/-- C8 witness: index 2 resolves to the table entry, `26` and `-1` fall back
to the unknown marker. -/
theorem calling_convention_witness :
    (fCc 2).GetCallingConventionString = ("NEAR_PASCAL") ∧
    (fCc 26).GetCallingConventionString = ("UnknownCallConv") ∧
    (fCc (-1)).GetCallingConventionString = ("UnknownCallConv") := by
  refine ⟨?_, ?_, ?_⟩
  · have h := (calling_convention_string_in_bounds (fCc 2)).1 (by decide)
    exact h.1.trans (by decide)
  · exact (calling_convention_string_in_bounds (fCc 26)).2 (by decide)
  · exact (calling_convention_string_in_bounds (fCc (-1))).2 (by decide)

/-- C9: `SetOrbitTypeFromName` returns `true` exactly when the pretty name
starts with `orbit_api::` and contains one of the twelve recognized patterns;
on `true` the orbit type becomes the value recorded for a contained pattern
and nothing else changes; on `false` the function is unchanged; and the
constructor runs it on every construction. -/
theorem set_orbit_type_from_name_spec (f : Function) :
    ((Function.SetOrbitTypeFromName f).1 = true ↔
       (("orbit_api::" : String).data <+: f.pretty_name_.data ∧
        ∃ p ∈ GetFunctionNameToOrbitTypeMap,
          p.1.data <:+: f.pretty_name_.data)) ∧
    ((Function.SetOrbitTypeFromName f).1 = true →
       ∃ p ∈ GetFunctionNameToOrbitTypeMap,
         p.1.data <:+: f.pretty_name_.data ∧
           (Function.SetOrbitTypeFromName f).2 =
             { f with orbit_type_ := p.2 }) ∧
    ((Function.SetOrbitTypeFromName f).1 = false →
       (Function.SetOrbitTypeFromName f).2 = f) ∧
    (∀ (name pretty_name : String) (address load_bias size : Nat)
       (file : String) (line : Nat),
       Function.create name pretty_name address load_bias size file line =
         (Function.SetOrbitTypeFromName
           { name_ := name, pretty_name_ := pretty_name,
             address_ := address, load_bias_ := load_bias, size_ := size,
             file_ := file, line_ := line, module_base_address_ := 0,
             calling_convention_ := -1,
             orbit_type_ := OrbitType.NONE }).2) := by
  by_cases hstart : strStartsWith f.pretty_name_ ("orbit_api::") = true
  · rcases hfind : GetFunctionNameToOrbitTypeMap.find?
        (fun p => strContains f.pretty_name_ p.1) with _ | p
    · have hdef : Function.SetOrbitTypeFromName f = (false, f) := by
        simp [Function.SetOrbitTypeFromName, hstart, hfind]
      refine ⟨?_, ?_, ?_, ?_⟩
      · rw [hdef]
        simp only [Bool.false_eq_true, false_iff]
        rintro ⟨-, p, hmem, hinf⟩
        have := List.find?_eq_none.mp hfind p hmem
        exact this ((strContains_iff _ _).mpr hinf)
      · rw [hdef]
        intro hco
        exact absurd hco (by simp)
      · rw [hdef]
        intro _
        rfl
      · intro name pretty_name address load_bias size file line
        rfl
    · have hdef : Function.SetOrbitTypeFromName f =
          (true, { f with orbit_type_ := p.2 }) := by
        simp [Function.SetOrbitTypeFromName, hstart, hfind]
      have hmem := List.mem_of_find?_eq_some hfind
      have hinf : p.1.data <:+: f.pretty_name_.data :=
        (strContains_iff _ _).mp (by simpa using List.find?_some hfind)
      refine ⟨?_, ?_, ?_, ?_⟩
      · rw [hdef]
        simp only [true_iff]
        exact ⟨(strStartsWith_iff _ _).mp hstart, p, hmem, hinf⟩
      · intro _
        exact ⟨p, hmem, hinf, by rw [hdef]⟩
      · rw [hdef]
        intro hco
        exact absurd hco (by simp)
      · intro name pretty_name address load_bias size file line
        rfl
  · have hs' : strStartsWith f.pretty_name_ ("orbit_api::") = false :=
      Bool.of_not_eq_true hstart
    have hdef : Function.SetOrbitTypeFromName f = (false, f) := by
      simp [Function.SetOrbitTypeFromName, hs']
    refine ⟨?_, ?_, ?_, ?_⟩
    · rw [hdef]
      simp only [Bool.false_eq_true, false_iff]
      rintro ⟨hco, -⟩
      have := (strStartsWith_iff f.pretty_name_ ("orbit_api::")).mpr hco
      rw [hs'] at this
      exact Bool.false_ne_true this
    · rw [hdef]
      intro hco
      exact absurd hco (by simp)
    · rw [hdef]
      intro _
      rfl
    · intro name pretty_name address load_bias size file line
      rfl

/-- C9 witness: an `orbit_api` stop marker is recognized and typed; a
non-`orbit_api` name containing a pattern is not. -/
theorem set_orbit_type_witness :
    (Function.SetOrbitTypeFromName
      (fCc 0)).1 = false ∧
    (Function.create ("n") ("orbit_api::Stop(int)") 1 2 3 ("f") 4).orbit_type_ =
      OrbitType.ORBIT_TIMER_STOP ∧
    ((Function.SetOrbitTypeFromName
        { fCc 0 with pretty_name_ := "orbit_api::Stop(int)" }).1 = true ↔
      (("orbit_api::" : String).data <+:
        ({ fCc 0 with pretty_name_ := "orbit_api::Stop(int)" } :
          Function).pretty_name_.data ∧
       ∃ p ∈ GetFunctionNameToOrbitTypeMap,
         p.1.data <:+:
           ({ fCc 0 with pretty_name_ := "orbit_api::Stop(int)" } :
             Function).pretty_name_.data)) :=
  ⟨by decide,
   by decide,
   (set_orbit_type_from_name_spec
      { fCc 0 with pretty_name_ := "orbit_api::Stop(int)" }).1⟩

/-- C10: after `Select` every function with the selected function's virtual
address reports selected, after `UnSelect` none does; selection is keyed by
`GetVirtualAddress()` alone. -/
theorem select_unselect_keyed_by_virtual_address (g : SelectedFunctionsMap)
    (f other : Function)
    (h : other.GetVirtualAddress = f.GetVirtualAddress) :
    Function.IsSelected (Function.Select g f) other = true ∧
    Function.IsSelected (Function.UnSelect g f) other = false := by
  constructor
  · simp [Function.IsSelected, Function.Select, List.countP_cons, h]
  · have hz : (Function.UnSelect g f).countP
        (fun p => p.1 = other.GetVirtualAddress) = 0 := by
      rw [Function.UnSelect, List.countP_filter]
      refine List.countP_eq_zero.mpr ?_
      intro a _
      by_cases ha : a.1 = f.GetVirtualAddress
      · simp [h, ha]
      · simp [h, ha]
    simp [Function.IsSelected, hz]

/-- C10 witness: `fB` shares `fA`'s virtual address, so selecting `fA`
selects `fB` and unselecting `fA` unselects `fB`. -/
theorem select_shared_address_witness :
    fB.GetVirtualAddress = fA.GetVirtualAddress ∧
    Function.IsSelected (Function.Select [] fA) fB = true ∧
    Function.IsSelected
      (Function.UnSelect [(fA.GetVirtualAddress, fA)] fA) fB = false :=
  ⟨by decide,
   (select_unselect_keyed_by_virtual_address [] fA fB (by decide)).1,
   (select_unselect_keyed_by_virtual_address
      [(fA.GetVirtualAddress, fA)] fA fB (by decide)).2⟩

end Orbit
